import Mathlib

/-!
# Verification of the auto-close-tabs extension core

Shallow embedding of `src/extension.ts` (workspace-identifier resolution,
activation resolver, activate/deactivate override-list mutation, command and
timer wiring) together with the Age Ledger and Closing Policy components that
the extension calls.  States are explicit records; the host editor's
observable inputs (workspace file, workspace folders, open tabs) are fields
of a `Host` record, and the persisted settings are a `Settings` record
mirroring the four configuration keys the code reads and writes.
-/

namespace AutoCloseTabs

/-- Boolean prefix test on strings, written over the character lists so that
it evaluates by kernel reduction.  It embeds the JavaScript
`uri.startsWith("untitled:")` call. -/
def strStartsWith (s p : String) : Bool :=
  List.isPrefixOf p.toList s.toList

/-- The host-editor inputs read by `extension.ts`:
`vscode.workspace.workspaceFile` (absent, or the workspace file URI as a
string) and `vscode.workspace.workspaceFolders` (absent, or the list of
folder URIs as strings). -/
structure Host where
  workspaceFile : Option String
  workspaceFolders : Option (List String)
deriving DecidableEq, Repr

/-- The persisted settings read through `getSettingValue`:
`autoclosetabs.activation` (absent when unset, otherwise the raw string),
`autoclosetabs.excludedWorkspaces`, `autoclosetabs.includedWorkspaces`, and
`autoclosetabs.tabAgeForAutomaticClosing`. -/
structure Settings where
  activation : Option String
  excludedWorkspaces : List String
  includedWorkspaces : List String
  tabAgeForAutomaticClosing : Nat
deriving DecidableEq, Repr

/-- The `workspaceFolders?.length === 1` branch of `getWorkspaceUri`:
the sole folder's URI when exactly one workspace folder is open, else none. -/
def soleWorkspaceFolderUri (host : Host) : Option String :=
  match host.workspaceFolders with
  | some [folderUri] => some folderUri
  | _ => none

/-- Embeds `getWorkspaceUri` (`extension.ts` lines 13-32): the workspace file
URI when it is a non-empty string not starting with "untitled:"; otherwise
the sole workspace folder URI when exactly one folder is open; otherwise
no permanent workspace URI (`null`). -/
def getWorkspaceUri (host : Host) : Option String :=
  match host.workspaceFile with
  | some workspaceFileUri =>
      if workspaceFileUri != "" && !(strStartsWith workspaceFileUri "untitled:") then
        some workspaceFileUri
      else
        soleWorkspaceFolderUri host
  | none => soleWorkspaceFolderUri host

/-- Embeds `isActiveByDefault` (`extension.ts` lines 34-35): the strict
string comparison `getSettingValue("autoclosetabs.activation") !==
"nowhere-except-included"`; an unset setting is `none` and compares
unequal. -/
def isActiveByDefault (s : Settings) : Bool :=
  s.activation != some "nowhere-except-included"

/-- Embeds `isActiveInWorkspace` (`extension.ts` lines 117-141). -/
def isActiveInWorkspace (host : Host) (s : Settings) : Bool :=
  let workspaceUri := getWorkspaceUri host
  if isActiveByDefault s then
    match workspaceUri with
    | none => true
    | some uri => !(s.excludedWorkspaces.contains uri)
  else
    match workspaceUri with
    | none => false
    | some uri => s.includedWorkspaces.contains uri

/-- Result of an activate/deactivate command: the settings after the call and
whether the "cannot be (de)activated in a temporary workspace" information
message was shown. -/
structure ActionResult where
  settings : Settings
  noticeShown : Bool
deriving DecidableEq, Repr

/-- Embeds `activateInWorkspace` (`extension.ts` lines 37-65): with no
workspace URI it shows a notice and returns; in default-active mode it
filters the URI out of `excludedWorkspaces`; otherwise it appends the URI to
`includedWorkspaces` (spread `[...includedWorkspaces, workspaceUri]`). -/
def activateInWorkspace (host : Host) (s : Settings) : ActionResult :=
  match getWorkspaceUri host with
  | none => { settings := s, noticeShown := true }
  | some workspaceUri =>
      if isActiveByDefault s then
        { settings :=
            { s with excludedWorkspaces :=
                s.excludedWorkspaces.filter (fun excludedWorkspace => excludedWorkspace != workspaceUri) }
          noticeShown := false }
      else
        { settings :=
            { s with includedWorkspaces := s.includedWorkspaces ++ [workspaceUri] }
          noticeShown := false }

/-- Embeds `deactivateInWorkspace` (`extension.ts` lines 67-95): with no
workspace URI it shows a notice and returns; in default-active mode it
appends the URI to `excludedWorkspaces` (spread `[...excludedWorkspaces,
workspaceUri]`); otherwise it filters the URI out of `includedWorkspaces`. -/
def deactivateInWorkspace (host : Host) (s : Settings) : ActionResult :=
  match getWorkspaceUri host with
  | none => { settings := s, noticeShown := true }
  | some workspaceUri =>
      if isActiveByDefault s then
        { settings :=
            { s with excludedWorkspaces := s.excludedWorkspaces ++ [workspaceUri] }
          noticeShown := false }
      else
        { settings :=
            { s with includedWorkspaces :=
                s.includedWorkspaces.filter (fun includedWorkspace => includedWorkspace != workspaceUri) }
          noticeShown := false }

/-- Modelled from the spec: the Age Ledger read accessor
`ageOf(tabIdentity) -> integer | absent` (spec section 4.1); the ledger
itself (`src/autoclosetabs.ts`) is not part of the provided sources, so it
is represented as an association list from tab identity to Age Counter. -/
def ageOf : List (String × Nat) → String → Option Nat
  | [], _ => none
  | (k, v) :: rest, tab => if k = tab then some v else ageOf rest tab

/-- Modelled from the spec: the Age Counter value used by the Closing Policy
when comparing against the threshold; a tab the ledger has not recorded yet
is treated as age 0 (created at value 0 when first observed, spec
section 3). -/
def tabAge (ledger : List (String × Nat)) (tab : String) : Nat :=
  (ageOf ledger tab).getD 0

/-- Modelled from the spec: the tie-breaking scan of Closing Policy step 3
(spec section 4.2) — the first tab, in stable iteration order, whose Age
Counter is smallest. -/
def minAgeTab (ledger : List (String × Nat)) : List String → Option String
  | [] => none
  | t :: ts =>
      match minAgeTab ledger ts with
      | none => some t
      | some b => if tabAge ledger b < tabAge ledger t then some b else some t

/-- Modelled from the spec: `closeTabs` / `selectAndClose(thresholdTicks,
ledger, openTabsByGroup)` (spec section 4.2; the implementation in
`src/autoclosetabs.ts` is not among the provided sources).  It returns the
list of tabs whose close is requested: the candidates are the open tabs of
age at least the threshold, and when every open tab is a candidate the first
minimal-age tab is removed from the candidates so one tab survives. -/
def closeTabs (thresholdTicks : Nat) (ledger : List (String × Nat)) (openTabs : List String) : List String :=
  let candidates := openTabs.filter (fun tab => thresholdTicks ≤ tabAge ledger tab)
  if candidates.length = openTabs.length then
    match minAgeTab ledger openTabs with
    | some survivor => candidates.erase survivor
    | none => candidates
  else
    candidates

/-- Modelled from the spec: `incrementTabTimeCounter` for a single tab
(spec sections 4.1 and 7): adds 1 to that tab's Age Counter; a missing
ledger entry is a benign no-op and is not implicitly created. -/
def incrementTabTimeCounter (tab : String) (ledger : List (String × Nat)) : List (String × Nat) :=
  ledger.map (fun entry => if entry.1 = tab then (entry.1, entry.2 + 1) else entry)

/-- The increment phase of the timer tick (`extension.ts` lines 181-183):
`incrementTabTimeCounter` applied to every tab currently open in every tab
group, in iteration order. -/
def incrementAllOpen (openTabs : List String) (ledger : List (String × Nat)) : List (String × Nat) :=
  openTabs.foldl (fun acc tab => incrementTabTimeCounter tab acc) ledger

/-- Outcome of one timer tick: the ledger after the increment phase and the
list of tabs whose close was requested during the tick. -/
structure TickResult where
  ledger : List (String × Nat)
  closed : List String
deriving DecidableEq, Repr

/-- Embeds the `setInterval` callback of `activate` (`extension.ts` lines
179-193): first every open tab's counter is incremented, then, only if
`isActiveInWorkspace()` holds, `closeTabs` is invoked with the configured
`autoclosetabs.tabAgeForAutomaticClosing` threshold on the incremented
ledger. -/
def timerTick (host : Host) (s : Settings) (ledger : List (String × Nat)) (openTabs : List String) : TickResult :=
  let newLedger := incrementAllOpen openTabs ledger
  { ledger := newLedger
    closed :=
      if isActiveInWorkspace host s then
        closeTabs s.tabAgeForAutomaticClosing newLedger openTabs
      else
        [] }

/-- Embeds the `autoclosetabs.closeUnusedTabs` command handler
(`extension.ts` lines 99-101): `() => closeTabs(0, context)` — the host and
settings are in scope but unused, and the threshold is the literal 0. -/
def closeUnusedTabsCommand (host : Host) (s : Settings) (ledger : List (String × Nat)) (openTabs : List String) : List String :=
  closeTabs 0 ledger openTabs

/-! ## Helper lemmas -/

/-- Filtering away every occurrence of `a` and appending a single `a` is a
permutation of the original list exactly when `a` occurred once. -/
theorem filter_ne_append_perm_of_count_one (l : List String) (a : String) (h : l.count a = 1) :
    List.Perm (l.filter (fun x => x != a) ++ [a]) l := by
  induction l with
  | nil => simp at h
  | cons b t ih =>
    rw [List.count_cons] at h
    by_cases hb : b = a
    · subst hb
      simp at h
      have ht : t.filter (fun x => x != b) = t := by
        rw [List.filter_eq_self]
        intro x hx
        have hxb : x ≠ b := by
          intro he
          subst he
          exact absurd (List.count_pos_iff.mpr hx) (by omega)
        simpa using hxb
      rw [List.filter_cons_of_neg (by simp)]
      rw [ht]
      exact List.perm_append_singleton b t
    · have ht : t.count a = 1 := by simpa [hb, Ne.symm hb] using h
      rw [List.filter_cons_of_pos (by simpa using hb)]
      simpa using (ih ht).cons b

/-- Filtering away an element that is not in the list leaves it unchanged. -/
theorem filter_ne_eq_self_of_not_mem (l : List String) (a : String) (h : a ∉ l) :
    l.filter (fun x => x != a) = l := by
  rw [List.filter_eq_self]
  intro x hx
  rw [bne_iff_ne]
  intro he
  subst he
  exact h hx

/-- `minAgeTab` returns nothing exactly on the empty tab list. -/
theorem minAgeTab_eq_none_iff (ledger : List (String × Nat)) (l : List String) :
    minAgeTab ledger l = none ↔ l = [] := by
  cases l with
  | nil => simp [minAgeTab]
  | cons t ts =>
    simp only [minAgeTab]
    cases minAgeTab ledger ts with
    | none => simp
    | some b => by_cases h : tabAge ledger b < tabAge ledger t <;> simp [h]

/-- On a nonempty tab list, `minAgeTab` returns a member whose age is a lower
bound of all members' ages. -/
theorem minAgeTab_mem_min (ledger : List (String × Nat)) :
    ∀ l : List String, l ≠ [] →
      ∃ s, minAgeTab ledger l = some s ∧ s ∈ l ∧
        ∀ t ∈ l, tabAge ledger s ≤ tabAge ledger t := by
  intro l
  induction l with
  | nil => intro h; exact absurd rfl h
  | cons t ts ih =>
    intro _
    cases hm : minAgeTab ledger ts with
    | none =>
        have hts : ts = [] := (minAgeTab_eq_none_iff ledger ts).mp hm
        subst hts
        refine ⟨t, ?_, List.mem_cons_self t [], ?_⟩
        · simp [minAgeTab]
        · intro x hx
          rcases List.mem_cons.mp hx with hx | hx
          · subst hx; exact le_refl _
          · cases hx
    | some b =>
        have hts : ts ≠ [] := by
          intro hcon
          subst hcon
          simp [minAgeTab] at hm
        obtain ⟨s0, hs0, hmem0, hmin0⟩ := ih hts
        rw [hs0] at hm
        injection hm with hm
        subst hm
        by_cases hlt : tabAge ledger s0 < tabAge ledger t
        · refine ⟨s0, ?_, List.mem_cons_of_mem t hmem0, ?_⟩
          · simp [minAgeTab, hs0, hlt]
          · intro x hx
            rcases List.mem_cons.mp hx with hx | hx
            · subst hx; exact le_of_lt hlt
            · exact hmin0 x hx
        · refine ⟨t, ?_, List.mem_cons_self t ts, ?_⟩
          · simp [minAgeTab, hs0, hlt]
          · intro x hx
            rcases List.mem_cons.mp hx with hx | hx
            · subst hx; exact le_refl _
            · exact le_trans (Nat.le_of_not_lt hlt) (hmin0 x hx)

/-- Effect of a single-tab increment on the ledger read accessor. -/
theorem ageOf_incrementTabTimeCounter (t tab : String) (ledger : List (String × Nat)) :
    ageOf (incrementTabTimeCounter t ledger) tab =
      if tab = t then (ageOf ledger tab).map (fun a => a + 1) else ageOf ledger tab := by
  induction ledger with
  | nil => by_cases h : tab = t <;> simp [incrementTabTimeCounter, ageOf, h]
  | cons e rest ih =>
    obtain ⟨k, v⟩ := e
    have hstep : incrementTabTimeCounter t ((k, v) :: rest) =
        (if k = t then (k, v + 1) else (k, v)) :: incrementTabTimeCounter t rest := by
      simp [incrementTabTimeCounter]
    rw [hstep]
    by_cases hk : k = t
    · rw [if_pos hk]
      by_cases htab : k = tab
      · subst htab
        rw [if_pos hk]
        simp [ageOf]
      · have htab2 : ¬ tab = t := fun he => htab (by rw [hk, he])
        rw [if_neg htab2]
        simp [ageOf, htab, ih, htab2]
    · rw [if_neg hk]
      by_cases htab : k = tab
      · subst htab
        rw [if_neg hk]
        simp [ageOf]
      · simp [ageOf, htab, ih]

/-- Effect of the tick's increment phase on the ledger read accessor, for a
duplicate-free open-tab list: entries of open tabs gain exactly 1, all other
entries are unchanged. -/
theorem ageOf_incrementAllOpen_nodup (tab : String) :
    ∀ (l : List String) (ledger : List (String × Nat)), l.Nodup →
      ageOf (incrementAllOpen l ledger) tab =
        if tab ∈ l then (ageOf ledger tab).map (fun a => a + 1) else ageOf ledger tab := by
  intro l
  induction l with
  | nil =>
      intro ledger _
      simp [incrementAllOpen]
  | cons t ts ih =>
    intro ledger hnd
    have h1 : incrementAllOpen (t :: ts) ledger = incrementAllOpen ts (incrementTabTimeCounter t ledger) := rfl
    rw [h1, ih (incrementTabTimeCounter t ledger) (List.nodup_cons.mp hnd).2]
    rw [ageOf_incrementTabTimeCounter]
    by_cases htt : tab = t
    · subst htt
      have hnotin : tab ∉ ts := (List.nodup_cons.mp hnd).1
      simp [hnotin]
    · by_cases hts : tab ∈ ts <;> simp [htt, hts]

/-! ## Claim theorems -/

/-- C1: `isActiveInWorkspace` follows the activation decision table: in
default-active mode it returns true exactly when no workspace URI resolves or
the resolved URI is not in the excluded-workspaces list; in default-inactive
mode it returns true exactly when a URI resolves and is in the
included-workspaces list. -/
theorem isActiveInWorkspace_decision (host : Host) (s : Settings) :
    isActiveInWorkspace host s = true ↔
      ((isActiveByDefault s = true ∧
          ∀ uri, getWorkspaceUri host = some uri → uri ∉ s.excludedWorkspaces) ∨
        (isActiveByDefault s = false ∧
          ∃ uri, getWorkspaceUri host = some uri ∧ uri ∈ s.includedWorkspaces)) := by
  cases hd : isActiveByDefault s <;> cases hu : getWorkspaceUri host <;>
    simp [isActiveInWorkspace, hu, hd]

/-- Witness for C1: with no workspace context and default settings the
resolver reports active. -/
theorem isActiveInWorkspace_decision_witness :
    isActiveInWorkspace ⟨none, none⟩ ⟨none, [], [], 30⟩ = true :=
  (isActiveInWorkspace_decision ⟨none, none⟩ ⟨none, [], [], 30⟩).mpr
    (Or.inl ⟨rfl, fun uri h => by simp [getWorkspaceUri, soleWorkspaceFolderUri] at h⟩)

/-- C6: when no Workspace Identifier resolves, both `activateInWorkspace` and
`deactivateInWorkspace` leave the settings entirely unchanged and surface the
"cannot be (de)activated in a temporary workspace" notice. -/
theorem temporaryWorkspace_noop_notice (host : Host) (s : Settings)
    (h : getWorkspaceUri host = none) :
    activateInWorkspace host s = { settings := s, noticeShown := true } ∧
      deactivateInWorkspace host s = { settings := s, noticeShown := true } := by
  unfold activateInWorkspace deactivateInWorkspace
  rw [h]
  exact ⟨rfl, rfl⟩

/-- Witness for C6 at a host with no workspace file and no folders. -/
theorem temporaryWorkspace_noop_notice_witness :
    activateInWorkspace ⟨none, none⟩ ⟨none, ["W1"], ["W2"], 30⟩ =
        { settings := ⟨none, ["W1"], ["W2"], 30⟩, noticeShown := true } ∧
      deactivateInWorkspace ⟨none, none⟩ ⟨none, ["W1"], ["W2"], 30⟩ =
        { settings := ⟨none, ["W1"], ["W2"], 30⟩, noticeShown := true } :=
  temporaryWorkspace_noop_notice ⟨none, none⟩ ⟨none, ["W1"], ["W2"], 30⟩ rfl

/-- C9: the "close unused tabs now" command handler always invokes the
Closing Policy with threshold exactly 0, and its behaviour is independent of
the host activation state and of every configured setting, in particular of
the configured automatic age threshold. -/
theorem closeUnusedTabsCommand_threshold_zero (host host2 : Host) (s s2 : Settings)
    (ledger : List (String × Nat)) (openTabs : List String) :
    closeUnusedTabsCommand host s ledger openTabs = closeTabs 0 ledger openTabs ∧
      closeUnusedTabsCommand host s ledger openTabs =
        closeUnusedTabsCommand host2 s2 ledger openTabs :=
  ⟨rfl, rfl⟩

/-- C10: the resolver operates in default-active mode for every value of the
`autoclosetabs.activation` setting other than the exact string
"nowhere-except-included" — including when the setting is unset — and that
string alone selects default-inactive mode. -/
theorem isActiveByDefault_iff (activation : Option String)
    (excluded included : List String) (age : Nat) :
    isActiveByDefault ⟨activation, excluded, included, age⟩ = true ↔
      activation ≠ some "nowhere-except-included" := by
  simp [isActiveByDefault]

/-- C2 counterexample: with default-active mode and the current workspace URI
already present in excluded-workspaces, `deactivateInWorkspace` is not a
no-op — it appends the URI again, leaving it in the list twice. -/
theorem deactivate_duplicate_counterexample :
    ((deactivateInWorkspace ⟨some "file:///w", none⟩
        ⟨none, ["file:///w"], [], 30⟩).settings.excludedWorkspaces).count "file:///w" = 2 := by
  decide

/-- C2 (amended): only the removal direction of the override-list operations
has set semantics — `activateInWorkspace` in default-active mode removes
every occurrence of the identifier from excluded-workspaces, and
`deactivateInWorkspace` in default-inactive mode removes every occurrence
from included-workspaces — while the insertion direction appends the
identifier unconditionally, even when it is already present. -/
theorem overrideLists_insertion_appends (host : Host) (s : Settings) (uri : String)
    (h : getWorkspaceUri host = some uri) :
    (isActiveByDefault s = true →
        (deactivateInWorkspace host s).settings.excludedWorkspaces =
            s.excludedWorkspaces ++ [uri] ∧
          uri ∉ (activateInWorkspace host s).settings.excludedWorkspaces) ∧
      (isActiveByDefault s = false →
        (activateInWorkspace host s).settings.includedWorkspaces =
            s.includedWorkspaces ++ [uri] ∧
          uri ∉ (deactivateInWorkspace host s).settings.includedWorkspaces) := by
  obtain ⟨a, ex, inc, age⟩ := s
  constructor
  · intro hd
    constructor
    · simp [deactivateInWorkspace, h, hd]
    · simp [activateInWorkspace, h, hd, List.mem_filter]
  · intro hd
    constructor
    · simp [activateInWorkspace, h, hd]
    · simp [deactivateInWorkspace, h, hd, List.mem_filter]

/-- Witness for the amended C2 in default-active mode at a concrete host and
settings. -/
theorem overrideLists_insertion_appends_witness :
    (deactivateInWorkspace ⟨some "file:///w", none⟩
          ⟨none, [], [], 30⟩).settings.excludedWorkspaces = [] ++ ["file:///w"] ∧
      "file:///w" ∉ (activateInWorkspace ⟨some "file:///w", none⟩
          ⟨none, [], [], 30⟩).settings.excludedWorkspaces :=
  (overrideLists_insertion_appends ⟨some "file:///w", none⟩ ⟨none, [], [], 30⟩
      "file:///w" rfl).1 rfl

/-- C3 counterexample: starting in default-active mode with an empty
excluded-workspaces list, `activate()` then `deactivate()` on the same
workspace leaves excluded-workspaces as `["file:///w"]`, which is not a
permutation of the original empty list — the round trip is not the
identity. -/
theorem roundtrip_counterexample :
    (deactivateInWorkspace ⟨some "file:///w", none⟩
          (activateInWorkspace ⟨some "file:///w", none⟩
            ⟨none, [], [], 30⟩).settings).settings.excludedWorkspaces = ["file:///w"] ∧
      ¬ List.Perm (["file:///w"] : List String) [] :=
  ⟨rfl, by decide⟩

/-- C3 (amended): `activate()` followed by `deactivate()` on the same
workspace restores both override lists (up to permutation) exactly under the
conditions the code's unconditional append and filter impose: in
default-active mode when the identifier occurs exactly once in
excluded-workspaces, and in default-inactive mode when the identifier does
not occur in included-workspaces; in each mode the other list is untouched. -/
theorem activate_deactivate_roundtrip (host : Host) (s : Settings) (uri : String)
    (h : getWorkspaceUri host = some uri) :
    (isActiveByDefault s = true → s.excludedWorkspaces.count uri = 1 →
        List.Perm ((deactivateInWorkspace host
              (activateInWorkspace host s).settings).settings.excludedWorkspaces)
            s.excludedWorkspaces ∧
          (deactivateInWorkspace host
              (activateInWorkspace host s).settings).settings.includedWorkspaces =
            s.includedWorkspaces) ∧
      (isActiveByDefault s = false → uri ∉ s.includedWorkspaces →
        (deactivateInWorkspace host
              (activateInWorkspace host s).settings).settings.includedWorkspaces =
            s.includedWorkspaces ∧
          (deactivateInWorkspace host
              (activateInWorkspace host s).settings).settings.excludedWorkspaces =
            s.excludedWorkspaces) := by
  obtain ⟨a, ex, inc, age⟩ := s
  constructor
  · intro hd hcount
    have hact : (activateInWorkspace host ⟨a, ex, inc, age⟩).settings =
        ⟨a, ex.filter (fun x => x != uri), inc, age⟩ := by
      simp [activateInWorkspace, h, hd]
    have hd2 : isActiveByDefault (⟨a, ex.filter (fun x => x != uri), inc, age⟩ : Settings) = true := hd
    rw [hact]
    constructor
    · have hde : (deactivateInWorkspace host
            ⟨a, ex.filter (fun x => x != uri), inc, age⟩).settings.excludedWorkspaces =
          ex.filter (fun x => x != uri) ++ [uri] := by
        simp [deactivateInWorkspace, h, hd2]
      rw [hde]
      exact filter_ne_append_perm_of_count_one ex uri hcount
    · simp [deactivateInWorkspace, h, hd2]
  · intro hd hmem
    have hact : (activateInWorkspace host ⟨a, ex, inc, age⟩).settings =
        ⟨a, ex, inc ++ [uri], age⟩ := by
      simp [activateInWorkspace, h, hd]
    have hd2 : isActiveByDefault (⟨a, ex, inc ++ [uri], age⟩ : Settings) = false := hd
    rw [hact]
    constructor
    · have hde : (deactivateInWorkspace host
            ⟨a, ex, inc ++ [uri], age⟩).settings.includedWorkspaces =
          (inc ++ [uri]).filter (fun x => x != uri) := by
        simp [deactivateInWorkspace, h, hd2]
      rw [hde, List.filter_append, filter_ne_eq_self_of_not_mem inc uri hmem]
      simp
    · simp [deactivateInWorkspace, h, hd2]

/-- Witness for the amended C3 in default-active mode: the identifier occurs
once in excluded-workspaces and the round trip permutes it back. -/
theorem activate_deactivate_roundtrip_witness :
    List.Perm ((deactivateInWorkspace ⟨some "file:///w", none⟩
          (activateInWorkspace ⟨some "file:///w", none⟩
            ⟨none, ["file:///w"], [], 30⟩).settings).settings.excludedWorkspaces)
        ["file:///w"] ∧
      (deactivateInWorkspace ⟨some "file:///w", none⟩
          (activateInWorkspace ⟨some "file:///w", none⟩
            ⟨none, ["file:///w"], [], 30⟩).settings).settings.includedWorkspaces = [] :=
  (activate_deactivate_roundtrip ⟨some "file:///w", none⟩ ⟨none, ["file:///w"], [], 30⟩
      "file:///w" rfl).1 rfl (by decide)

/-- C5 counterexample: with an untitled (unsaved) workspace file open and one
workspace folder, a workspace file is open yet the resolved identifier is the
folder URI, not the workspace-file URI. -/
theorem getWorkspaceUri_untitled_counterexample :
    (⟨some "untitled:1", some ["file:///a"]⟩ : Host).workspaceFile = some "untitled:1" ∧
      getWorkspaceUri ⟨some "untitled:1", some ["file:///a"]⟩ = some "file:///a" ∧
      (some "file:///a" : Option String) ≠ some "untitled:1" :=
  ⟨rfl, rfl, by decide⟩

/-- C5 (amended): the resolved Workspace Identifier is the workspace-file URI
whenever a workspace file is open whose URI is non-empty and does not start
with "untitled:"; otherwise it is the sole workspace folder's URI when
exactly one folder is open; otherwise no identifier resolves, and in that
case the activation result never depends on either override list. -/
theorem getWorkspaceUri_resolution (host : Host) :
    (∀ fileUri, host.workspaceFile = some fileUri → fileUri ≠ "" →
        strStartsWith fileUri "untitled:" = false → getWorkspaceUri host = some fileUri) ∧
      (∀ fileUri, host.workspaceFile = some fileUri →
        strStartsWith fileUri "untitled:" = true →
        getWorkspaceUri host = soleWorkspaceFolderUri host) ∧
      (host.workspaceFile = none → getWorkspaceUri host = soleWorkspaceFolderUri host) ∧
      (∀ folderUri, host.workspaceFolders = some [folderUri] →
        soleWorkspaceFolderUri host = some folderUri) ∧
      (∀ folders, host.workspaceFolders = some folders → folders.length ≠ 1 →
        soleWorkspaceFolderUri host = none) ∧
      (host.workspaceFolders = none → soleWorkspaceFolderUri host = none) ∧
      (getWorkspaceUri host = none → ∀ s1 s2 : Settings, s1.activation = s2.activation →
        isActiveInWorkspace host s1 = isActiveInWorkspace host s2) := by
  refine ⟨?_, ?_, ?_, ?_, ?_, ?_, ?_⟩
  · intro fileUri hf h1 h2
    have h1b : (fileUri != "") = true := bne_iff_ne.mpr h1
    simp [getWorkspaceUri, hf, h1b, h2]
  · intro fileUri hf h2
    simp [getWorkspaceUri, hf, h2]
  · intro hf
    simp [getWorkspaceUri, hf]
  · intro folderUri hfo
    simp [soleWorkspaceFolderUri, hfo]
  · intro folders hfo hlen
    cases folders with
    | nil => simp [soleWorkspaceFolderUri, hfo]
    | cons f rest =>
        cases rest with
        | nil => exact absurd rfl hlen
        | cons g rest2 => simp [soleWorkspaceFolderUri, hfo]
  · intro hfo
    simp [soleWorkspaceFolderUri, hfo]
  · intro h0 s1 s2 ha
    have hb : isActiveByDefault s1 = isActiveByDefault s2 := by
      unfold isActiveByDefault
      rw [ha]
    simp [isActiveInWorkspace, h0, hb]

/-- Witness for the amended C5: an untitled workspace file defers to the sole
workspace folder. -/
theorem getWorkspaceUri_resolution_witness :
    getWorkspaceUri ⟨some "untitled:1", some ["file:///a"]⟩ =
      soleWorkspaceFolderUri ⟨some "untitled:1", some ["file:///a"]⟩ :=
  (getWorkspaceUri_resolution ⟨some "untitled:1", some ["file:///a"]⟩).2.1
    "untitled:1" rfl (by decide)

/-- C4: on a nonempty duplicate-free open-tab list, one closing pass requests
strictly fewer closes than there are open tabs, so at least one tab stays
open; and when every open tab is a candidate (age at least the threshold),
the first tab of minimal Age Counter is dropped from the candidates — it is
not closed and its age is a lower bound of all open tabs' ages. -/
theorem closeTabs_leaves_one_open (thresholdTicks : Nat) (ledger : List (String × Nat))
    (openTabs : List String) (hne : openTabs ≠ []) (hnd : openTabs.Nodup) :
    (closeTabs thresholdTicks ledger openTabs).length < openTabs.length ∧
      (openTabs.filter (fun tab => thresholdTicks ≤ tabAge ledger tab) = openTabs →
        ∀ survivor, minAgeTab ledger openTabs = some survivor →
          survivor ∉ closeTabs thresholdTicks ledger openTabs ∧
            ∀ t ∈ openTabs, tabAge ledger survivor ≤ tabAge ledger t) := by
  obtain ⟨s0, hs0, hmem0, hmin0⟩ := minAgeTab_mem_min ledger openTabs hne
  have hpos : 0 < openTabs.length := List.length_pos.mpr hne
  constructor
  · by_cases hlen : (openTabs.filter
        (fun tab => thresholdTicks ≤ tabAge ledger tab)).length = openTabs.length
    · have heq : openTabs.filter (fun tab => thresholdTicks ≤ tabAge ledger tab) = openTabs :=
        (List.filter_sublist openTabs).eq_of_length hlen
      have hcl : closeTabs thresholdTicks ledger openTabs = openTabs.erase s0 := by
        simp [closeTabs, heq, hs0]
      rw [hcl, List.length_erase_of_mem hmem0]
      omega
    · have hcl : closeTabs thresholdTicks ledger openTabs =
          openTabs.filter (fun tab => thresholdTicks ≤ tabAge ledger tab) := by
        simp [closeTabs, hlen]
      rw [hcl]
      exact lt_of_le_of_ne (List.length_filter_le _ openTabs) hlen
  · intro hfull survivor hs
    rw [hs0] at hs
    injection hs with hs
    subst hs
    have hcl : closeTabs thresholdTicks ledger openTabs = openTabs.erase s0 := by
      simp [closeTabs, hfull, hs0]
    constructor
    · rw [hcl]
      intro hmem
      exact ((List.Nodup.mem_erase_iff hnd).mp hmem).1 rfl
    · exact hmin0

/-- Witness for C4 at two open tabs of ages 5 and 3 with threshold 0: the
younger tab survives the pass. -/
theorem closeTabs_leaves_one_open_witness :
    (closeTabs 0 [("a", 5), ("b", 3)] ["a", "b"]).length < (["a", "b"] : List String).length ∧
      ((["a", "b"] : List String).filter
          (fun tab => 0 ≤ tabAge [("a", 5), ("b", 3)] tab) = ["a", "b"] →
        ∀ survivor, minAgeTab [("a", 5), ("b", 3)] ["a", "b"] = some survivor →
          survivor ∉ closeTabs 0 [("a", 5), ("b", 3)] ["a", "b"] ∧
            ∀ t ∈ (["a", "b"] : List String),
              tabAge [("a", 5), ("b", 3)] survivor ≤ tabAge [("a", 5), ("b", 3)] t) :=
  closeTabs_leaves_one_open 0 [("a", 5), ("b", 3)] ["a", "b"] (by decide) (by decide)

/-- C7: on a timer tick over a duplicate-free open-tab collection, every open
tab's ledger entry is incremented by exactly 1 (and an open tab with no entry
stays absent), and the closing decision of the tick is evaluated on the fully
incremented ledger. -/
theorem timerTick_increments_then_closes (host : Host) (s : Settings)
    (ledger : List (String × Nat)) (openTabs : List String) (hnd : openTabs.Nodup) :
    (∀ tab ∈ openTabs,
        ageOf (timerTick host s ledger openTabs).ledger tab =
          (ageOf ledger tab).map (fun a => a + 1)) ∧
      (timerTick host s ledger openTabs).closed =
        (if isActiveInWorkspace host s then
            closeTabs s.tabAgeForAutomaticClosing (incrementAllOpen openTabs ledger) openTabs
          else []) := by
  constructor
  · intro tab htab
    have hinc := ageOf_incrementAllOpen_nodup tab openTabs ledger hnd
    have hled : (timerTick host s ledger openTabs).ledger = incrementAllOpen openTabs ledger := rfl
    rw [hled, hinc, if_pos htab]
  · rfl

/-- Witness for C7: with one open tab of age 1, the tick raises its age
to 2 and evaluates closing on the incremented ledger. -/
theorem timerTick_increments_then_closes_witness :
    ageOf (timerTick ⟨none, none⟩ ⟨none, [], [], 30⟩ [("a", 1)] ["a"]).ledger "a" =
      (ageOf [("a", 1)] "a").map (fun a => a + 1) :=
  (timerTick_increments_then_closes ⟨none, none⟩ ⟨none, [], [], 30⟩ [("a", 1)] ["a"]
      (by decide)).1 "a" (by decide)

/-- C8: the timer tick invokes the Closing Policy exactly when the Activation
Resolver reports active: when inactive nothing is closed, and when active the
closes are those of `closeTabs` at the configured automatic age threshold on
the incremented ledger. -/
theorem timerTick_close_iff_active (host : Host) (s : Settings)
    (ledger : List (String × Nat)) (openTabs : List String) :
    (isActiveInWorkspace host s = false → (timerTick host s ledger openTabs).closed = []) ∧
      (isActiveInWorkspace host s = true →
        (timerTick host s ledger openTabs).closed =
          closeTabs s.tabAgeForAutomaticClosing (incrementAllOpen openTabs ledger) openTabs) := by
  constructor <;> intro h <;> simp [timerTick, h]

/-- Witness for C8: with default settings the resolver is active and the tick
closes exactly what the Closing Policy selects at the configured threshold. -/
theorem timerTick_close_iff_active_witness :
    (timerTick ⟨none, none⟩ ⟨none, [], [], 30⟩ [("a", 31)] ["a"]).closed =
      closeTabs 30 (incrementAllOpen ["a"] [("a", 31)]) ["a"] :=
  (timerTick_close_iff_active ⟨none, none⟩ ⟨none, [], [], 30⟩ [("a", 31)] ["a"]).2 rfl

end AutoCloseTabs
